import Mathlib

/-!
Verification of the Server-Monitor-System fleet-polling engine.

This file gives a shallow embedding of the polling, parsing, scheduling and
persistence code of the repository:

* `Mysql_update/Check_connect_V0.1.py` — connectivity check plus disk-space
  parsing (`parse_disk_info`, `test_server_connectivity_and_disk`);
* `Mysql_update/Update_status_V0.2.py` — credential fallback probe
  (`get_server_usage`), the metric regexes, and `update_database`;
* `Auto_run/util.py` — the dual-cadence scheduler loop
  (`continuous_execution`).

Python regular-expression searches are embedded as explicit character-list
scanners; all the patterns used by the code are free of genuine backtracking
(every `X+` is followed by a token that cannot match inside `X`), except the
CPU pattern whose bounded backtracking is embedded explicitly.  Machine
floats are idealised as `ℚ`; a raised Python exception is modelled as
`Option.none` wherever the surrounding code does not catch it.
-/

/-- Python `\d` on ASCII text: the characters `'0'`–`'9'`. -/
def isDigitChar (c : Char) : Bool := '0' ≤ c && c ≤ '9'

/-- Python `\s` on ASCII text: space, tab, newline, carriage return,
vertical tab and form feed. -/
def isSpaceChar (c : Char) : Bool :=
  c = ' ' || c = '\t' || c = '\n' || c = '\r' || c = '\x0b' || c = '\x0c'

/-- Python `\w` on ASCII text: letters, digits and underscore. -/
def isWordChar (c : Char) : Bool := c.isAlphanum || c = '_'

/-- Value of one ASCII digit character. -/
def digitVal (c : Char) : ℕ := c.toNat - 48

/-- Python `int(...)` applied to a nonempty string of digits. -/
def digitsToNat (l : List Char) : ℕ := l.foldl (fun n c => 10 * n + digitVal c) 0

/-- Python `str.strip()`: remove leading and trailing whitespace. -/
def pystrip (l : List Char) : List Char :=
  ((l.dropWhile isSpaceChar).reverse.dropWhile isSpaceChar).reverse

/-- `re.search` driver: try to match at each start position from the left and
return the first success.  (None of the embedded patterns can match the empty
string, so the final empty position never matches.) -/
def reSearch {α : Type} (tryAt : List Char → Option α) : List Char → Option α
  | [] => none
  | c :: rest =>
    match tryAt (c :: rest) with
    | some a => some a
    | none => reSearch tryAt rest

/-- One step of `re.findall`: scan left to right, emitting each
non-overlapping match and continuing after its end.  Each embedded match
consumes at least one character, so the input length is enough fuel. -/
def findallAux {α : Type} (tryAt : List Char → Option (α × List Char)) :
    ℕ → List Char → List α
  | 0, _ => []
  | _ + 1, [] => []
  | fuel + 1, c :: rest =>
    match tryAt (c :: rest) with
    | some (a, remaining) => a :: findallAux tryAt fuel remaining
    | none => findallAux tryAt fuel rest

/-- `re.findall` driver. -/
def reFindall {α : Type} (tryAt : List Char → Option (α × List Char))
    (l : List Char) : List α :=
  findallAux tryAt l.length l

/-- Match a literal character sequence at the head of the input, returning the
rest of the input. -/
def stripLit : List Char → List Char → Option (List Char)
  | [], l => some l
  | _ :: _, [] => none
  | p :: ps, c :: cs => if c = p then stripLit ps cs else none

/-- Match a literal character sequence case-insensitively (the literal is
given in lowercase), as `re.IGNORECASE` does for these ASCII literals. -/
def stripLitCI : List Char → List Char → Option (List Char)
  | [], l => some l
  | _ :: _, [] => none
  | p :: ps, c :: cs => if c.toLower = p then stripLitCI ps cs else none

/-- Try the disk pattern `(\d+)\s+(\d+)` of `Check_connect_V0.1.py` at the
current position: a maximal digit run, a nonempty whitespace run, and a
second maximal digit run.  Greedy matching needs no backtracking here
because a shortened `\d+` ends on a digit, which `\s+` cannot match, and a
shortened `\s+` ends on a whitespace character, which `\d+` cannot match.
Returns the two captured integers `(free bytes, size bytes)`. -/
def diskTryAt (l : List Char) : Option (ℕ × ℕ) :=
  let d1 := l.takeWhile isDigitChar
  if d1 = [] then none else
  let r1 := l.dropWhile isDigitChar
  if r1.takeWhile isSpaceChar = [] then none else
  let r2 := r1.dropWhile isSpaceChar
  let d2 := r2.takeWhile isDigitChar
  if d2 = [] then none else
  some (digitsToNat d1, digitsToNat d2)

/-- `disk_info_pattern.search` on the stripped command output. -/
def diskSearch (l : List Char) : Option (ℕ × ℕ) := reSearch diskTryAt l

/-- Round-half-to-even on `ℚ`, the tie behaviour of Python `round`. -/
def roundHalfEven (q : ℚ) : ℤ :=
  let n := ⌊q⌋
  let frac := q - n
  if frac < 1 / 2 then n
  else if 1 / 2 < frac then n + 1
  else if n % 2 = 0 then n else n + 1

/-- Python `round(x, 2)` idealised on `ℚ`. -/
def round2 (q : ℚ) : ℚ := (roundHalfEven (q * 100) : ℚ) / 100

/-- `parse_disk_info` of `Check_connect_V0.1.py`: strip the output, search for
two whitespace-separated integers; on a match, group 1 is the remaining
(free) bytes and group 2 the total bytes, each converted to GB by dividing by
`1024 ** 3` and rounding to two decimals.  The returned pair is
`(total_capacity_gb, remaining_capacity_gb)`; a failed search gives
`(None, None)`.  The function is total: no input raises. -/
def parse_disk_info (s : String) : Option ℚ × Option ℚ :=
  match diskSearch (pystrip s.data) with
  | none => (none, none)
  | some (remaining_bytes, total_bytes) =>
    (some (round2 ((total_bytes : ℚ) / 1024 ^ 3)),
     some (round2 ((remaining_bytes : ℚ) / 1024 ^ 3)))

/-- Lowercase characters of the literal `FreePhysicalMemory=`. -/
def memLit1 : List Char := "freephysicalmemory=".data

/-- Lowercase characters of the literal `TotalVisibleMemorySize=`. -/
def memLit2 : List Char := "totalvisiblememorysize=".data

/-- Try the memory pattern
`FreePhysicalMemory=(\d+)\s+TotalVisibleMemorySize=(\d+)` (compiled with
`re.IGNORECASE`) of `Update_status_V0.2.py` at the current position.  As for
the disk pattern, greedy matching needs no backtracking.  Returns the two
captured integers `(free KB, total KB)`. -/
def memTryAt (l : List Char) : Option (ℕ × ℕ) :=
  match stripLitCI memLit1 l with
  | none => none
  | some r1 =>
    let d1 := r1.takeWhile isDigitChar
    if d1 = [] then none else
    let r2 := r1.dropWhile isDigitChar
    if r2.takeWhile isSpaceChar = [] then none else
    let r3 := r2.dropWhile isSpaceChar
    match stripLitCI memLit2 r3 with
    | none => none
    | some r4 =>
      let d2 := r4.takeWhile isDigitChar
      if d2 = [] then none else
      some (digitsToNat d1, digitsToNat d2)

/-- `memory_pattern.search` on the command output. -/
def memorySearch (s : String) : Option (ℕ × ℕ) := reSearch memTryAt s.data

/-- The memory-usage arithmetic of `get_server_usage`
(`(total_memory - free_memory) / total_memory * 100`).  Python raises
`ZeroDivisionError` when `total_memory` is `0`; that exception is not caught
by the surrounding `except (asyncssh.Error, asyncio.TimeoutError)` clause, so
it is modelled as `none`. -/
def memUsageValue (free total : ℕ) : Option ℚ :=
  if total = 0 then none
  else some (((total : ℚ) - (free : ℚ)) / (total : ℚ) * 100)

/-- A parsed metric value: the `"Error"` sentinel (all credentials failed),
the `"Unknown"` sentinel (pattern miss), or a numeric percentage. -/
inductive Metric where
  | err : Metric
  | unknown : Metric
  | val : ℚ → Metric
deriving DecidableEq

/-- The memory block of `get_server_usage`: search, default `"Unknown"` on a
miss, otherwise the usage arithmetic; `none` models the uncaught
`ZeroDivisionError`. -/
def parse_memory (s : String) : Option Metric :=
  match memorySearch s with
  | none => some Metric.unknown
  | some (free, total) =>
    match memUsageValue free total with
    | none => none
    | some q => some (Metric.val q)

/-- Try the CPU pattern `"(\d+.\d+)"` of `Update_status_V0.2.py` at the
current position.  The unescaped `.` matches any character except a newline,
so this pattern genuinely backtracks: after the opening quote and a maximal
digit run `d`, the regex first tries the run's successor character as the
`.`; if that fails, the only other way a match can close is with the
successor character as the closing quote and the `.` taken from inside the
run (so `d` needs at least three digits).  Returns the captured group as
`(digits before the dot character, the dot character if the group is not all
digits, digits after it)`. -/
def cpuTryAt (l : List Char) : Option (List Char × Option Char × List Char) :=
  match l with
  | [] => none
  | q :: r =>
    if q = '"' then
      let d := r.takeWhile isDigitChar
      if d = [] then none else
      match r.dropWhile isDigitChar with
      | [] => none
      | c :: r2 =>
        let attempt1 : Option (List Char × Option Char × List Char) :=
          if c = '\n' then none else
          let e := r2.takeWhile isDigitChar
          if e = [] then none else
          match r2.dropWhile isDigitChar with
          | '"' :: _ => some (d, some c, e)
          | _ => none
        match attempt1 with
        | some g => some g
        | none => if 3 ≤ d.length ∧ c = '"' then some (d, none, []) else none
    else none

/-- `cpu_pattern.search` on the command output. -/
def cpuSearch (s : String) : Option (List Char × Option Char × List Char) :=
  reSearch cpuTryAt s.data

/-- Python `float(...)` applied to the captured CPU group, idealised on `ℚ`.
The group is digits, one arbitrary non-newline character, digits (or all
digits).  `float` accepts a decimal point, a digit, a scientific-notation
`e`/`E`, or an underscore between digits; any other middle character raises
`ValueError` (modelled as `none`), which the source does not catch. -/
def pyFloatGroup : List Char × Option Char × List Char → Option ℚ
  | (d1, none, _) => some ((digitsToNat d1 : ℚ))
  | (d1, some c, d2) =>
    if c = '.' then
      some ((digitsToNat d1 : ℚ) + (digitsToNat d2 : ℚ) / (10 : ℚ) ^ d2.length)
    else if isDigitChar c then some ((digitsToNat (d1 ++ c :: d2) : ℚ))
    else if c = 'e' ∨ c = 'E' then
      some ((digitsToNat d1 : ℚ) * (10 : ℚ) ^ digitsToNat d2)
    else if c = '_' then some ((digitsToNat (d1 ++ d2) : ℚ))
    else none

/-- The CPU block of `get_server_usage`: search, default `"Unknown"` on a
miss, otherwise `float` of the captured group (`none` models the uncaught
`ValueError`). -/
def parse_cpu (s : String) : Option Metric :=
  match cpuSearch s with
  | none => some Metric.unknown
  | some g =>
    match pyFloatGroup g with
    | none => none
    | some q => some (Metric.val q)

/-- Characters of the literal `Active`. -/
def activeLit : List Char := "Active".data

/-- Try the session pattern `(\w+)\s+\S+\s+\d+\s+Active` of
`Update_status_V0.2.py` at the current position (greedy, no backtracking
possible, as each shortened run ends on a character the next token rejects).
Returns the captured username and the rest of the input after the match. -/
def userTryAt (l : List Char) : Option (List Char × List Char) :=
  let u := l.takeWhile isWordChar
  if u = [] then none else
  let r1 := l.dropWhile isWordChar
  if r1.takeWhile isSpaceChar = [] then none else
  let r2 := r1.dropWhile isSpaceChar
  if r2.takeWhile (fun c => !isSpaceChar c) = [] then none else
  let r3 := r2.dropWhile (fun c => !isSpaceChar c)
  if r3.takeWhile isSpaceChar = [] then none else
  let r4 := r3.dropWhile isSpaceChar
  if r4.takeWhile isDigitChar = [] then none else
  let r5 := r4.dropWhile isDigitChar
  if r5.takeWhile isSpaceChar = [] then none else
  let r6 := r5.dropWhile isSpaceChar
  match stripLit activeLit r6 with
  | none => none
  | some r7 => some (u, r7)

/-- `user_pattern.findall` on the command output. -/
def parse_users (s : String) : List String :=
  (reFindall userTryAt s.data).map String.mk

/-- Characters of the literal `192.168.1.` (the dots are escaped in the
pattern). -/
def ipLit : List Char := "192.168.1.".data

/-- Characters of the literal `:3389`. -/
def portLit : List Char := ":3389".data

/-- Try the endpoint pattern `\s192\.168\.1\.\d+:3389\s+(192\.168\.1\.\d+)`
of `Update_status_V0.2.py` at the current position (greedy, no backtracking
possible).  Returns the captured client address and the rest of the input
after the match. -/
def ipTryAt (l : List Char) : Option (List Char × List Char) :=
  match l with
  | [] => none
  | c :: r =>
    if isSpaceChar c then
      match stripLit ipLit r with
      | none => none
      | some r1 =>
        if r1.takeWhile isDigitChar = [] then none else
        let r2 := r1.dropWhile isDigitChar
        match stripLit portLit r2 with
        | none => none
        | some r3 =>
          if r3.takeWhile isSpaceChar = [] then none else
          let r4 := r3.dropWhile isSpaceChar
          match stripLit ipLit r4 with
          | none => none
          | some r5 =>
            let d2 := r5.takeWhile isDigitChar
            if d2 = [] then none else
            some (ipLit ++ d2, r5.dropWhile isDigitChar)
    else none

/-- `ip_pattern.findall` on the command output. -/
def parse_ips (s : String) : List String :=
  (reFindall ipTryAt s.data).map String.mk

/-- Result of a completed remote command (`asyncssh` run): exit code and
captured standard output. -/
structure RunResult where
  exit_code : ℤ
  stdout : String
deriving DecidableEq

/-- `conn.run(..., check=True)` as used by the disk command of
`Check_connect_V0.1.py`: a non-zero exit status raises `ProcessError`
(modelled as `Except.error`), otherwise the standard output is returned. -/
def run_check (r : RunResult) : Except Unit String :=
  if r.exit_code = 0 then Except.ok r.stdout else Except.error ()

/-- The result tuple `(host, cpu_usage, memory_usage, active_users,
active_ip)` of `get_server_usage`. -/
structure UsageTuple where
  host : String
  cpu : Metric
  memory : Metric
  users : List String
  ips : List String
deriving DecidableEq

/-- Outcome of the body of `get_server_usage` after a session was obtained:
either the returned tuple, or an uncaught exception raised while parsing. -/
inductive UsageOutcome where
  | ok : UsageTuple → UsageOutcome
  | raised : UsageOutcome
deriving DecidableEq

/-- The session body of `get_server_usage` (`Update_status_V0.2.py`): the
command result is taken from `result.stdout` with no exit-status check, then
memory, CPU, users and client addresses are parsed from it. -/
def runSession (host : String) (r : RunResult) : UsageOutcome :=
  match parse_memory r.stdout with
  | none => UsageOutcome.raised
  | some m =>
    match parse_cpu r.stdout with
    | none => UsageOutcome.raised
    | some c =>
      UsageOutcome.ok ⟨host, c, m, parse_users r.stdout, parse_ips r.stdout⟩

/-- One username/password pair of the `CREDENTIALS` list. -/
structure Cred where
  username : String
  password : String
deriving DecidableEq

/-- The credential loop of `get_server_usage`: `session c` is `some r` when
connecting and running the command with credential `c` succeeds with result
`r`, and `none` when it fails with one of the caught exceptions
(`asyncssh.Error`, `asyncio.TimeoutError`), in which case the loop continues
with the next credential.  Returns the list of credentials attempted, in
order, together with the outcome; when every credential fails the function
returns the `(host, "Error", "Error", [], [])` tuple. -/
def get_server_usage (session : Cred → Option RunResult) (host : String) :
    List Cred → List Cred × UsageOutcome
  | [] => ([], UsageOutcome.ok ⟨host, Metric.err, Metric.err, [], []⟩)
  | c :: rest =>
    match session c with
    | some r => ([c], runSession host r)
    | none =>
      let p := get_server_usage session host rest
      (c :: p.1, p.2)

/-- Python truthiness of an optional float: `None` and `0.0` are falsy. -/
def pyTruthy : Option ℚ → Bool
  | none => false
  | some q => decide (q ≠ 0)

/-- Row of the `server_connectivity` table. -/
structure ConnRow where
  sid : ℕ
  ok : Bool
  t : ℕ
deriving DecidableEq

/-- Row of the `server_disk_C_storage` table. -/
structure DiskRow where
  sid : ℕ
  total_gb : ℚ
  remaining_gb : ℚ
  t : ℕ
deriving DecidableEq

/-- Row of the `cpu_usages` / `memory_usages` tables (`NULL` as `none`). -/
structure UsageRow where
  sid : ℕ
  value : Option ℚ
  t : ℕ
deriving DecidableEq

/-- Row of the `active_users` table. -/
structure UserRow where
  sid : ℕ
  name : String
  t : ℕ
deriving DecidableEq

/-- Row of the `active_ip` table. -/
structure IpRow where
  sid : ℕ
  ip : String
  t : ℕ
deriving DecidableEq

/-- The relational store: the `servers` table is the list of known hosts,
with the row index as `server_id`. -/
structure Db where
  servers : List String
  connectivity : List ConnRow
  disk : List DiskRow
  cpu : List UsageRow
  memory : List UsageRow
  users : List UserRow
  ips : List IpRow
deriving DecidableEq

/-- The empty store. -/
def dbEmpty : Db := ⟨[], [], [], [], [], [], []⟩

/-- `INSERT ... ON DUPLICATE KEY UPDATE` into `server_connectivity`, keyed by
`server_id`: update the flag and timestamp of an existing row, else append. -/
def upsertConn (rows : List ConnRow) (r : ConnRow) : List ConnRow :=
  if rows.any (fun x => x.sid == r.sid) then
    rows.map (fun x => if x.sid == r.sid then { x with ok := r.ok, t := r.t } else x)
  else rows ++ [r]

/-- `INSERT ... ON DUPLICATE KEY UPDATE` into `server_disk_C_storage`, keyed
by `server_id`. -/
def upsertDisk (rows : List DiskRow) (r : DiskRow) : List DiskRow :=
  if rows.any (fun x => x.sid == r.sid) then
    rows.map (fun x =>
      if x.sid == r.sid then
        { x with total_gb := r.total_gb, remaining_gb := r.remaining_gb, t := r.t }
      else x)
  else rows ++ [r]

/-- `INSERT ... ON DUPLICATE KEY UPDATE` into `active_ip`, keyed by
`(server_id, ip_address)`. -/
def upsertIp (rows : List IpRow) (r : IpRow) : List IpRow :=
  if rows.any (fun x => x.sid == r.sid && x.ip == r.ip) then
    rows.map (fun x =>
      if x.sid == r.sid && x.ip == r.ip then { x with ip := r.ip, t := r.t } else x)
  else rows ++ [r]

/-- The server-lookup prologue of `update_database`: `SELECT server_id FROM
servers WHERE host = ...`, inserting the host first when absent.  Returns the
server id and the updated `servers` table. -/
def findOrCreateServer (servers : List String) (host : String) : ℕ × List String :=
  match servers.findIdx? (fun h => h == host) with
  | some i => (i, servers)
  | none => (servers.length, servers ++ [host])

/-- The `"Unknown"`-to-`NULL` conversion of `update_database`
(`round(float(x), 2) if x != "Unknown" else None`); the `err` case never
reaches this point because of the surrounding `!= "Error"` guard. -/
def metricStored : Metric → Option ℚ
  | Metric.unknown => none
  | Metric.val q => some (round2 q)
  | Metric.err => none

/-- Whether a metric carries the `"Error"` sentinel. -/
def metricIsError : Metric → Bool
  | Metric.err => true
  | _ => false

/-- `update_database` of `Update_status_V0.2.py`: find or create the server
row; when neither metric is the `"Error"` sentinel, append one `cpu_usages`
and one `memory_usages` row (`NULL` for `"Unknown"`, otherwise the value
rounded to two decimals); append all active users; upsert all active client
addresses keyed by `(server_id, ip_address)`. -/
def update_database (host : String) (cpu memory : Metric)
    (users ips : List String) (t : ℕ) (db : Db) : Db :=
  let fc := findOrCreateServer db.servers host
  let sid := fc.1
  let db1 := { db with servers := fc.2 }
  let db2 :=
    if metricIsError cpu = false ∧ metricIsError memory = false then
      { db1 with
        cpu := db1.cpu ++ [⟨sid, metricStored cpu, t⟩],
        memory := db1.memory ++ [⟨sid, metricStored memory, t⟩] }
    else db1
  let db3 :=
    if users = [] then db2
    else { db2 with users := db2.users ++ users.map (fun u => (⟨sid, u, t⟩ : UserRow)) }
  if ips = [] then db3
  else { db3 with ips := (ips.map (fun ip => (⟨sid, ip, t⟩ : IpRow))).foldl upsertIp db3.ips }

/-- Environment of one `test_server_connectivity_and_disk` call: whether the
SSH connection succeeds, and, if a session is obtained, the result of the
disk command (`none` when the command itself raises a caught exception). -/
structure CheckEnv where
  connect_ok : Bool
  disk_run : Option RunResult
deriving DecidableEq

/-- The disk values obtained by `test_server_connectivity_and_disk`
(`Check_connect_V0.1.py`): both stay `None` unless the connection succeeded
and the disk command, run with `check=True`, exited with status zero and its
output parsed; any exception inside the inner `try` leaves them `None`. -/
def checkDiskValues (connect_ok : Bool) (disk_run : Option RunResult) :
    Option ℚ × Option ℚ :=
  if connect_ok then
    match disk_run with
    | some r =>
      match run_check r with
      | Except.ok out => parse_disk_info out
      | Except.error _ => (none, none)
    | none => (none, none)
  else (none, none)

/-- `test_server_connectivity_and_disk` of `Check_connect_V0.1.py`: record
the connectivity flag by upsert, then write the disk row only when the Python
condition `total_capacity_gb and remaining_capacity_gb` is truthy (both
present and both non-zero). -/
def test_server_connectivity_and_disk (env : CheckEnv) (sid t : ℕ) (db : Db) : Db :=
  let vals := checkDiskValues env.connect_ok env.disk_run
  let db1 := { db with connectivity := upsertConn db.connectivity ⟨sid, env.connect_ok, t⟩ }
  match vals with
  | (some tc, some rc) =>
    if pyTruthy (some tc) && pyTruthy (some rc) then
      { db1 with disk := upsertDisk db1.disk ⟨sid, tc, rc, t⟩ }
    else db1
  | _ => db1

/-- One host's writes for one full cycle: the extract job's `update_database`
followed by the check job's `test_server_connectivity_and_disk`. -/
def cyclePersist (host : String) (cpu memory : Metric) (users ips : List String)
    (t : ℕ) (env : CheckEnv) (sid : ℕ) (db : Db) : Db :=
  test_server_connectivity_and_disk env sid t (update_database host cpu memory users ips t db)

/-- One iteration of the `continuous_execution` loop (`Auto_run/util.py`) as
a function of the countdown `t`: fire the check job and reset the countdown
when it has expired, run the extract job (taking `extract_time` seconds),
compute the sleep budget `max(0, nap_extract - extract_time)`, and decrement
the countdown by the full `nap_extract`.  Returns `(sleep_time, new
countdown)`. -/
def schedStep (nap_check nap_extract extract_time t : ℚ) : ℚ × ℚ :=
  let t1 := if t ≤ 0 then nap_check else t
  (max 0 (nap_extract - extract_time), t1 - nap_extract)

/-- The countdown after running the scheduler loop over a list of measured
extract execution times. -/
def schedCountdown (nap_check nap_extract : ℚ) (ts : List ℚ) (t : ℚ) : ℚ :=
  ts.foldl (fun acc et => (schedStep nap_check nap_extract et acc).2) t

/-! ### List-scanning lemmas -/

/-- Appending does not change a `takeWhile` span that stops inside the
original list. -/
theorem takeWhile_append_stop {α : Type} (p : α → Bool) (x y : List α)
    (h : x.dropWhile p ≠ []) : (x ++ y).takeWhile p = x.takeWhile p := by
  induction x with
  | nil => simp [List.dropWhile] at h
  | cons a x ih =>
    by_cases hpa : p a
    · simp only [List.cons_append, List.takeWhile_cons, hpa, if_true]
      rw [ih]
      simpa [List.dropWhile, hpa] using h
    · simp [List.takeWhile_cons, hpa]

/-- Appending lands after a `dropWhile` span that stops inside the original
list. -/
theorem dropWhile_append_stop {α : Type} (p : α → Bool) (x y : List α)
    (h : x.dropWhile p ≠ []) : (x ++ y).dropWhile p = x.dropWhile p ++ y := by
  induction x with
  | nil => simp [List.dropWhile] at h
  | cons a x ih =>
    by_cases hpa : p a
    · simp only [List.cons_append, List.dropWhile_cons, hpa, if_true]
      rw [ih]
      simpa [List.dropWhile, hpa] using h
    · simp [List.dropWhile_cons, hpa]

/-- When the whole list satisfies the predicate, `takeWhile` over an appended
list continues into the suffix. -/
theorem takeWhile_append_all {α : Type} (p : α → Bool) (x y : List α)
    (h : x.dropWhile p = []) : (x ++ y).takeWhile p = x ++ y.takeWhile p := by
  induction x with
  | nil => simp
  | cons a x ih =>
    by_cases hpa : p a
    · simp only [List.cons_append, List.takeWhile_cons, hpa, if_true, List.cons.injEq,
        true_and]
      exact ih (by simpa [List.dropWhile, hpa] using h)
    · simp [List.dropWhile, hpa] at h

/-- A `takeWhile` is empty when no element can satisfy the predicate. -/
theorem takeWhile_eq_nil_of_none {α : Type} (p : α → Bool) (x : List α)
    (h : ∀ c ∈ x, p c = false) : x.takeWhile p = [] := by
  cases x with
  | nil => rfl
  | cons a x => simp [List.takeWhile_cons, h a (List.mem_cons_self a x)]

/-- Whitespace characters are not digits. -/
theorem space_not_digit (c : Char) (h : isSpaceChar c = true) : isDigitChar c = false := by
  have h2 : c = ' ' ∨ c = '\t' ∨ c = '\n' ∨ c = '\r' ∨ c = '\x0b' ∨ c = '\x0c' := by
    simpa [isSpaceChar, or_assoc] using h
  rcases h2 with h2 | h2 | h2 | h2 | h2 | h2 <;> subst h2 <;> decide

/-- Appending all-whitespace text after a successful disk match leaves the
match and its captured integers unchanged. -/
theorem diskTryAt_append_space (x w : List Char) (r : ℕ × ℕ)
    (hw : ∀ c ∈ w, isSpaceChar c = true) (h : diskTryAt x = some r) :
    diskTryAt (x ++ w) = some r := by
  have hwd : ∀ c ∈ w, isDigitChar c = false := fun c hc => space_not_digit c (hw c hc)
  simp only [diskTryAt] at h
  by_cases h1 : x.takeWhile isDigitChar = []
  · simp [h1] at h
  by_cases h2 : (x.dropWhile isDigitChar).takeWhile isSpaceChar = []
  · simp [h1, h2] at h
  by_cases h3 :
      ((x.dropWhile isDigitChar).dropWhile isSpaceChar).takeWhile isDigitChar = []
  · simp [h1, h2, h3] at h
  simp only [h1, h2, h3, if_false, if_neg h1, if_neg h2, if_neg h3] at h
  have hx1 : x.dropWhile isDigitChar ≠ [] := by
    intro he
    exact h2 (by rw [he]; rfl)
  have hx2 : (x.dropWhile isDigitChar).dropWhile isSpaceChar ≠ [] := by
    intro he
    exact h3 (by rw [he]; rfl)
  simp only [diskTryAt]
  rw [takeWhile_append_stop _ _ _ hx1, dropWhile_append_stop _ _ _ hx1,
    takeWhile_append_stop _ _ _ hx2, dropWhile_append_stop _ _ _ hx2]
  by_cases h4 : ((x.dropWhile isDigitChar).dropWhile isSpaceChar).dropWhile isDigitChar = []
  · rw [takeWhile_append_all _ _ _ h4, takeWhile_eq_nil_of_none _ _ hwd,
      List.append_nil]
    have hall : ((x.dropWhile isDigitChar).dropWhile isSpaceChar).takeWhile isDigitChar
        = (x.dropWhile isDigitChar).dropWhile isSpaceChar := by
      have hsplit := List.takeWhile_append_dropWhile isDigitChar
        ((x.dropWhile isDigitChar).dropWhile isSpaceChar)
      rw [h4, List.append_nil] at hsplit
      exact hsplit
    rw [if_neg h1, if_neg h2, if_neg (by rw [← hall]; exact h3)]
    rw [← hall]
    exact h
  · rw [takeWhile_append_stop _ _ _ h4]
    rw [if_neg h1, if_neg h2, if_neg h3]
    exact h

/-- Stripping splits the input into leading text, the core, and all-whitespace
trailing text. -/
theorem pystrip_decomp (l : List Char) :
    ∃ w1 w2, l = w1 ++ (pystrip l ++ w2) ∧ ∀ c ∈ w2, isSpaceChar c = true := by
  refine ⟨l.takeWhile isSpaceChar,
    (((l.dropWhile isSpaceChar).reverse.takeWhile isSpaceChar)).reverse, ?_, ?_⟩
  · have h1 : l.takeWhile isSpaceChar ++ l.dropWhile isSpaceChar = l :=
      List.takeWhile_append_dropWhile isSpaceChar l
    have h2 : (l.dropWhile isSpaceChar).reverse.takeWhile isSpaceChar
        ++ (l.dropWhile isSpaceChar).reverse.dropWhile isSpaceChar
        = (l.dropWhile isSpaceChar).reverse :=
      List.takeWhile_append_dropWhile isSpaceChar (l.dropWhile isSpaceChar).reverse
    have h3 := congrArg List.reverse h2
    simp only [List.reverse_append, List.reverse_reverse] at h3
    calc l = l.takeWhile isSpaceChar ++ l.dropWhile isSpaceChar := h1.symm
      _ = l.takeWhile isSpaceChar
          ++ (pystrip l ++ ((l.dropWhile isSpaceChar).reverse.takeWhile isSpaceChar).reverse) := by
        rw [pystrip]
        exact congrArg _ h3.symm
  · intro c hc
    rw [List.mem_reverse] at hc
    exact List.mem_takeWhile_imp hc

/-- A search fails when the pattern matches at no start position. -/
theorem reSearch_eq_none {α : Type} (tryAt : List Char → Option α) (m : List Char)
    (h : ∀ i, tryAt (m.drop i) = none) : reSearch tryAt m = none := by
  induction m with
  | nil => rfl
  | cons c rest ih =>
    have h0 := h 0
    simp only [List.drop] at h0
    simp only [reSearch, h0]
    exact ih fun i => by
      have := h (i + 1)
      simpa [List.drop_succ_cons] using this


/-- If the disk pattern matches at no position of the raw text, the search on
the stripped text fails. -/
theorem diskSearch_pystrip_none (l : List Char)
    (h : ∀ i, diskTryAt (l.drop i) = none) : diskSearch (pystrip l) = none := by
  apply reSearch_eq_none
  intro i
  by_cases hi : i < (pystrip l).length
  · cases hsome : diskTryAt ((pystrip l).drop i) with
    | none => rfl
    | some r =>
      exfalso
      obtain ⟨w1, w2, hl, hw2⟩ := pystrip_decomp l
      have key : l.drop (w1.length + i) = (pystrip l).drop i ++ w2 := by
        conv_lhs => rw [hl]
        rw [List.drop_append_eq_append_drop, List.drop_eq_nil_of_le (Nat.le_add_right _ _),
          List.nil_append, Nat.add_sub_cancel_left, List.drop_append_eq_append_drop,
          Nat.sub_eq_zero_of_le (le_of_lt hi), List.drop_zero]
      have hmatch := diskTryAt_append_space ((pystrip l).drop i) w2 r hw2 hsome
      rw [← key, h (w1.length + i)] at hmatch
      exact Option.noConfusion hmatch
  · rw [List.drop_eq_nil_of_le (le_of_not_lt hi)]
    rfl

/-- Bounded search failure extends to all positions, since dropping past the
end gives the empty list, where the pattern cannot match. -/
theorem diskTryAt_none_everywhere (l : List Char)
    (h : ∀ i < l.length, diskTryAt (l.drop i) = none) :
    ∀ i, diskTryAt (l.drop i) = none := by
  intro i
  by_cases hi : i < l.length
  · exact h i hi
  · rw [List.drop_eq_nil_of_le (le_of_not_lt hi)]
    rfl

/-! ### Rounding lemmas -/

/-- Round-half-even below the midpoint rounds down. -/
theorem roundHalfEven_eq_low (q : ℚ) (n : ℤ) (h1 : (n : ℚ) ≤ q)
    (h2 : q < (n : ℚ) + 1 / 2) : roundHalfEven q = n := by
  have hf : ⌊q⌋ = n := by
    rw [Int.floor_eq_iff]
    exact ⟨h1, by linarith⟩
  unfold roundHalfEven
  rw [hf, if_pos (by linarith)]

/-- Round-half-even above the midpoint rounds up. -/
theorem roundHalfEven_eq_high (q : ℚ) (n : ℤ) (h1 : (n : ℚ) + 1 / 2 < q)
    (h2 : q < (n : ℚ) + 1) : roundHalfEven q = n + 1 := by
  have hf : ⌊q⌋ = n := by
    rw [Int.floor_eq_iff]
    exact ⟨by linarith, by linarith⟩
  unfold roundHalfEven
  rw [hf, if_neg (by linarith), if_pos (by linarith)]

/-- Two-decimal rounding, below-midpoint case. -/
theorem round2_eq_of_lt (q : ℚ) (n : ℤ) (h1 : (n : ℚ) ≤ q * 100)
    (h2 : q * 100 < (n : ℚ) + 1 / 2) : round2 q = (n : ℚ) / 100 := by
  unfold round2
  rw [roundHalfEven_eq_low (q * 100) n h1 h2]

/-- Two-decimal rounding, above-midpoint case. -/
theorem round2_eq_of_gt (q : ℚ) (n : ℤ) (h1 : (n : ℚ) + 1 / 2 < q * 100)
    (h2 : q * 100 < (n : ℚ) + 1) : round2 q = ((n : ℚ) + 1) / 100 := by
  unfold round2
  rw [roundHalfEven_eq_high (q * 100) n h1 h2]
  push_cast
  ring

/-! ### C5: disk conversion values -/

/-- C5: on disk-query output containing free = 50,000,000,000 bytes and
size = 200,000,000,000 bytes, `parse_disk_info` extracts the free bytes
first and the size second, divides each by 1024³ and rounds to two decimals,
yielding `total_capacity_gb = 186.26` and `remaining_capacity_gb = 46.57`. -/
theorem C5_parse_disk_info_values :
    parse_disk_info "FreeSpace    Size\n50000000000  200000000000\n"
      = (some (18626 / 100 : ℚ), some (4657 / 100 : ℚ)) := by
  have hs : diskSearch (pystrip ("FreeSpace    Size\n50000000000  200000000000\n").data)
      = some (50000000000, 200000000000) := by decide
  unfold parse_disk_info
  rw [hs]
  dsimp only
  rw [show ((200000000000 : ℕ) : ℚ) = 200000000000 by norm_cast,
    show ((50000000000 : ℕ) : ℚ) = 50000000000 by norm_cast,
    round2_eq_of_lt ((200000000000 : ℚ) / 1024 ^ 3) 18626 (by norm_num) (by norm_num),
    round2_eq_of_gt ((50000000000 : ℚ) / 1024 ^ 3) 4656 (by norm_num) (by norm_num)]
  norm_num

/-! ### C4: parser misses are non-exceptional -/

/-- C4: for every input string that does not contain the two required
whitespace-separated integers (the disk pattern matches at no position),
`parse_disk_info` returns `(None, None)`; the embedded function is total, so
no such input raises an exception. -/
theorem C4_parse_disk_info_no_match (s : String)
    (h : ∀ i, diskTryAt (s.data.drop i) = none) :
    parse_disk_info s = (none, none) := by
  unfold parse_disk_info
  rw [diskSearch_pystrip_none s.data h]

/-- C4 witness: a concrete output with no integer pair parses to
`(None, None)`. -/
theorem C4_witness : parse_disk_info "  FreeSpace Size  " = (none, none) :=
  C4_parse_disk_info_no_match _ (diskTryAt_none_everywhere _ (by decide))

/-! ### C1: memory usage computation -/

/-- C1 (amended): for every output text matched by the memory pattern with
`free ≤ total` and `total > 0`, `get_server_usage` computes the memory usage
as `(total - free) / total * 100`, the result lies in `[0, 100]`, and the
computation does not raise. -/
theorem C1_memory_usage_in_range (s : String) (free total : ℕ)
    (hm : memorySearch s = some (free, total)) (hle : free ≤ total)
    (hpos : 0 < total) :
    parse_memory s = some (Metric.val (((total : ℚ) - (free : ℚ)) / (total : ℚ) * 100))
    ∧ 0 ≤ ((total : ℚ) - (free : ℚ)) / (total : ℚ) * 100
    ∧ ((total : ℚ) - (free : ℚ)) / (total : ℚ) * 100 ≤ 100 := by
  have ht0 : (0 : ℚ) < (total : ℚ) := by exact_mod_cast hpos
  have hfle : (free : ℚ) ≤ (total : ℚ) := by exact_mod_cast hle
  have hf0 : (0 : ℚ) ≤ (free : ℚ) := by positivity
  refine ⟨?_, ?_, ?_⟩
  · unfold parse_memory memUsageValue
    rw [hm]
    dsimp only
    rw [if_neg (Nat.pos_iff_ne_zero.mp hpos)]
  · apply mul_nonneg _ (by norm_num)
    apply div_nonneg (by linarith) (le_of_lt ht0)
  · rw [div_mul_eq_mul_div, div_le_iff₀ ht0]
    nlinarith

/-- C1 witness: free = 2,000,000 KB and total = 8,000,000 KB give 75 %. -/
theorem C1_witness :
    (2000000 : ℕ) ≤ 8000000 ∧ (0 : ℕ) < 8000000
    ∧ (parse_memory "FreePhysicalMemory=2000000  TotalVisibleMemorySize=8000000"
        = some (Metric.val ((((8000000 : ℕ) : ℚ) - ((2000000 : ℕ) : ℚ))
            / ((8000000 : ℕ) : ℚ) * 100))
      ∧ 0 ≤ (((8000000 : ℕ) : ℚ) - ((2000000 : ℕ) : ℚ)) / ((8000000 : ℕ) : ℚ) * 100
      ∧ (((8000000 : ℕ) : ℚ) - ((2000000 : ℕ) : ℚ)) / ((8000000 : ℕ) : ℚ) * 100 ≤ 100) :=
  ⟨by norm_num, by norm_num,
    C1_memory_usage_in_range "FreePhysicalMemory=2000000  TotalVisibleMemorySize=8000000"
      2000000 8000000 (by decide) (by norm_num) (by norm_num)⟩

/-- C1 counterexample: the text `FreePhysicalMemory=0 TotalVisibleMemorySize=0`
is matched by the memory pattern with `free = total = 0` (so `free ≤ total`),
yet the usage computation divides by zero: the uncaught `ZeroDivisionError`
is the `none` result, refuting the claim that the computation never raises
and yields a value in `[0, 100]` for every matched text with
`free ≤ total`. -/
theorem C1_counterexample :
    memorySearch "FreePhysicalMemory=0 TotalVisibleMemorySize=0" = some (0, 0)
    ∧ (0 : ℕ) ≤ 0
    ∧ parse_memory "FreePhysicalMemory=0 TotalVisibleMemorySize=0" = none :=
  ⟨by decide, le_refl 0, by decide⟩

/-- While the countdown stays positive, each iteration lowers it by exactly
the extract interval, so after `k` iterations it has dropped by `10 k`. -/
theorem schedCountdown_linear (ts : List ℚ) (t : ℚ)
    (h : ∀ j : ℕ, j < ts.length → 0 < t - 10 * j) :
    schedCountdown 3600 10 ts t = t - 10 * ts.length := by
  induction ts generalizing t with
  | nil => simp [schedCountdown]
  | cons et ts ih =>
    have h0 : 0 < t := by
      have := h 0 (by simp)
      simpa using this
    have hstep : schedCountdown 3600 10 (et :: ts) t
        = schedCountdown 3600 10 ts (t - 10) := by
      simp [schedCountdown, schedStep, not_le.mpr h0]
    rw [hstep, ih (t - 10) ?_]
    · simp only [List.length_cons]
      push_cast
      ring
    · intro j hj
      have := h (j + 1) (by simpa using Nat.succ_lt_succ hj)
      push_cast at this ⊢
      linarith

/-- C3: each `continuous_execution` iteration decrements
`time_until_next_check` by exactly the full extract interval, independent of
the measured extract time; with extract interval 10 s and check interval
3600 s, a freshly reset countdown reaches `≤ 0` after exactly 360 iterations
(within `360 ± 1`) for any sequence of extract times between 1 s and 9 s,
and is still positive after 359. -/
theorem C3_scheduler_drift :
    (∀ nc ne et1 et2 t : ℚ, (schedStep nc ne et1 t).2 = (schedStep nc ne et2 t).2)
    ∧ (∀ nc ne et t : ℚ, (schedStep nc ne et t).2 = (if t ≤ 0 then nc else t) - ne)
    ∧ (∀ ts : List ℚ, ts.length = 360 → (∀ x ∈ ts, 1 ≤ x ∧ x ≤ 9) →
        schedCountdown 3600 10 ts 3600 ≤ 0)
    ∧ (∀ ts : List ℚ, ts.length = 359 → (∀ x ∈ ts, 1 ≤ x ∧ x ≤ 9) →
        0 < schedCountdown 3600 10 ts 3600) := by
  refine ⟨fun nc ne et1 et2 t => rfl, fun nc ne et t => rfl, ?_, ?_⟩
  · intro ts hlen _
    have hj : ∀ j : ℕ, j < ts.length → 0 < (3600 : ℚ) - 10 * j := by
      intro j hjlt
      rw [hlen] at hjlt
      have hc : (j : ℚ) ≤ 359 := by exact_mod_cast Nat.lt_succ_iff.mp hjlt
      linarith
    rw [schedCountdown_linear ts 3600 hj, hlen]
    norm_num
  · intro ts hlen _
    have hj : ∀ j : ℕ, j < ts.length → 0 < (3600 : ℚ) - 10 * j := by
      intro j hjlt
      rw [hlen] at hjlt
      have hc : (j : ℚ) ≤ 358 := by exact_mod_cast Nat.lt_succ_iff.mp hjlt
      linarith
    rw [schedCountdown_linear ts 3600 hj, hlen]
    norm_num

/-- C3 witness: the constant sequence of 5-second extract times. -/
theorem C3_witness :
    ((List.replicate 360 (5 : ℚ)).length = 360
      ∧ (∀ x ∈ List.replicate 360 (5 : ℚ), 1 ≤ x ∧ x ≤ 9)
      ∧ schedCountdown 3600 10 (List.replicate 360 (5 : ℚ)) 3600 ≤ 0)
    ∧ ((List.replicate 359 (5 : ℚ)).length = 359
      ∧ 0 < schedCountdown 3600 10 (List.replicate 359 (5 : ℚ)) 3600) :=
  ⟨⟨by rw [List.length_replicate], fun x hx => by rw [List.eq_of_mem_replicate hx]; norm_num,
    C3_scheduler_drift.2.2.1 _ (by rw [List.length_replicate])
      (fun x hx => by rw [List.eq_of_mem_replicate hx]; norm_num)⟩,
   ⟨by rw [List.length_replicate],
    C3_scheduler_drift.2.2.2 _ (by rw [List.length_replicate])
      (fun x hx => by rw [List.eq_of_mem_replicate hx]; norm_num)⟩⟩

/-- C2: `get_server_usage` attempts a session with each credential pair
strictly in list order and stops at the first success: for credentials
`[A, B]` with A failing and B succeeding, exactly one attempt is made with A
and one with B (never two with B); when every pair fails, the host is
classified unreachable for the cycle via the `(host, "Error", "Error", [],
[])` tuple; and the number of attempts is bounded by the length of the
credential list. -/
theorem C2_credential_fallback (session : Cred → Option RunResult) (host : String)
    (A B : Cred) (hA : session A = none) (hB : session B ≠ none) :
    (get_server_usage session host [A, B]).1 = [A, B]
    ∧ (get_server_usage session host [A, B]).1.count A = 1
    ∧ (get_server_usage session host [A, B]).1.count B = 1
    ∧ (∀ (s2 : Cred → Option RunResult) (creds : List Cred),
        (∀ c ∈ creds, s2 c = none) →
        get_server_usage s2 host creds
          = (creds, UsageOutcome.ok ⟨host, Metric.err, Metric.err, [], []⟩))
    ∧ (∀ (s2 : Cred → Option RunResult) (creds : List Cred),
        (get_server_usage s2 host creds).1.length ≤ creds.length) := by
  obtain ⟨r, hr⟩ := Option.ne_none_iff_exists.mp hB
  have hAB : A ≠ B := by
    intro he
    rw [he, ← hr] at hA
    exact Option.noConfusion hA
  have hatt : (get_server_usage session host [A, B]).1 = [A, B] := by
    simp [get_server_usage, hA, ← hr]
  refine ⟨hatt, ?_, ?_, ?_, ?_⟩
  · rw [hatt]
    simp [List.count_cons, hAB]
  · rw [hatt]
    simp [List.count_cons, hAB]
  · intro s2 creds hall
    induction creds with
    | nil => simp [get_server_usage]
    | cons c rest ih =>
      have hc := hall c (List.mem_cons_self c rest)
      simp [get_server_usage, hc,
        ih fun d hd => hall d (List.mem_cons_of_mem c hd)]
  · intro s2 creds
    induction creds with
    | nil => simp [get_server_usage]
    | cons c rest ih =>
      cases hc : s2 c with
      | some r2 => simp [get_server_usage, hc]
      | none =>
        simp only [get_server_usage, hc, List.length_cons]
        exact Nat.succ_le_succ ih

/-- C2 witness: a two-credential list where the first pair fails and the
second succeeds. -/
theorem C2_witness :
    (get_server_usage
        (fun c => if c.username = "u2" then some (⟨0, ""⟩ : RunResult) else none)
        "10.0.0.5" [⟨"u1", "p1"⟩, ⟨"u2", "p2"⟩]).1 = [⟨"u1", "p1"⟩, ⟨"u2", "p2"⟩]
    ∧ (get_server_usage
        (fun c => if c.username = "u2" then some (⟨0, ""⟩ : RunResult) else none)
        "10.0.0.5" [⟨"u1", "p1"⟩, ⟨"u2", "p2"⟩]).1.count ⟨"u1", "p1"⟩ = 1
    ∧ (get_server_usage
        (fun c => if c.username = "u2" then some (⟨0, ""⟩ : RunResult) else none)
        "10.0.0.5" [⟨"u1", "p1"⟩, ⟨"u2", "p2"⟩]).1.count ⟨"u2", "p2"⟩ = 1
    ∧ (∀ (s2 : Cred → Option RunResult) (creds : List Cred),
        (∀ c ∈ creds, s2 c = none) →
        get_server_usage s2 "10.0.0.5" creds
          = (creds, UsageOutcome.ok ⟨"10.0.0.5", Metric.err, Metric.err, [], []⟩))
    ∧ (∀ (s2 : Cred → Option RunResult) (creds : List Cred),
        (get_server_usage s2 "10.0.0.5" creds).1.length ≤ creds.length) :=
  C2_credential_fallback
    (fun c => if c.username = "u2" then some (⟨0, ""⟩ : RunResult) else none)
    "10.0.0.5" ⟨"u1", "p1"⟩ ⟨"u2", "p2"⟩ (by decide) (by decide)

/-- C8 counterexample: the claim "for every remote command execution a
non-zero exit code is a soft failure whose stdout is still fed to the
parsers" fails for the disk command of `test_server_connectivity_and_disk`,
which runs with `check=True`: with exit code 1 and parsable stdout, the
raised `ProcessError` is caught and both disk values stay `None`, although
`parse_disk_info` on that same stdout would succeed. -/
theorem C8_counterexample :
    checkDiskValues true (some ⟨1, "50000000000  200000000000"⟩) = (none, none)
    ∧ parse_disk_info "50000000000  200000000000" ≠ (none, none) := by
  constructor
  · rfl
  · have hs : diskSearch (pystrip ("50000000000  200000000000").data)
        = some (50000000000, 200000000000) := by decide
    unfold parse_disk_info
    rw [hs]
    simp

/-- C8 (amended): in the extract probe (`get_server_usage`, which calls
`conn.run` without `check`), the result tuple depends only on the captured
stdout, never on the exit code — a non-zero exit is a soft failure; in the
connectivity check's disk command (run with `check=True`), a non-zero exit
raises and the output is discarded, leaving the disk values `(None, None)`. -/
theorem C8_soft_failure :
    (∀ (host : String) (e1 e2 : ℤ) (s : String),
        runSession host ⟨e1, s⟩ = runSession host ⟨e2, s⟩)
    ∧ (∀ (e : ℤ) (s : String), e ≠ 0 →
        run_check ⟨e, s⟩ = Except.error ()
        ∧ checkDiskValues true (some ⟨e, s⟩) = (none, none)) := by
  refine ⟨fun host e1 e2 s => rfl, fun e s he => ?_⟩
  have hrc : run_check ⟨e, s⟩ = Except.error () := by
    unfold run_check
    rw [if_neg he]
  refine ⟨hrc, ?_⟩
  unfold checkDiskValues
  dsimp only
  rw [hrc]
  rfl

/-- C8 witness: exit code 1 versus 0 on the same stdout. -/
theorem C8_witness :
    runSession "h" ⟨1, "x"⟩ = runSession "h" ⟨0, "x"⟩
    ∧ (run_check ⟨1, "x"⟩ = Except.error ()
       ∧ checkDiskValues true (some ⟨1, "x"⟩) = (none, none)) :=
  ⟨C8_soft_failure.1 "h" 1 0 "x", C8_soft_failure.2 1 "x" (by decide)⟩

/-! ### Projections of the persistence functions -/

theorem ud_servers (host : String) (cpu memory : Metric) (users ips : List String)
    (t : ℕ) (db : Db) :
    (update_database host cpu memory users ips t db).servers
      = (findOrCreateServer db.servers host).2 := by
  unfold update_database
  by_cases h2 : metricIsError cpu = false ∧ metricIsError memory = false <;>
    by_cases h3 : users = [] <;> by_cases h4 : ips = [] <;> simp [h2, h3, h4]

theorem ud_connectivity (host : String) (cpu memory : Metric) (users ips : List String)
    (t : ℕ) (db : Db) :
    (update_database host cpu memory users ips t db).connectivity = db.connectivity := by
  unfold update_database
  by_cases h2 : metricIsError cpu = false ∧ metricIsError memory = false <;>
    by_cases h3 : users = [] <;> by_cases h4 : ips = [] <;> simp [h2, h3, h4]

theorem ud_disk (host : String) (cpu memory : Metric) (users ips : List String)
    (t : ℕ) (db : Db) :
    (update_database host cpu memory users ips t db).disk = db.disk := by
  unfold update_database
  by_cases h2 : metricIsError cpu = false ∧ metricIsError memory = false <;>
    by_cases h3 : users = [] <;> by_cases h4 : ips = [] <;> simp [h2, h3, h4]

theorem ud_cpu (host : String) (cpu memory : Metric) (users ips : List String)
    (t : ℕ) (db : Db) :
    (update_database host cpu memory users ips t db).cpu
      = if metricIsError cpu = false ∧ metricIsError memory = false
        then db.cpu ++ [⟨(findOrCreateServer db.servers host).1, metricStored cpu, t⟩]
        else db.cpu := by
  unfold update_database
  by_cases h2 : metricIsError cpu = false ∧ metricIsError memory = false <;>
    by_cases h3 : users = [] <;> by_cases h4 : ips = [] <;> simp [h2, h3, h4]

theorem ud_memory (host : String) (cpu memory : Metric) (users ips : List String)
    (t : ℕ) (db : Db) :
    (update_database host cpu memory users ips t db).memory
      = if metricIsError cpu = false ∧ metricIsError memory = false
        then db.memory ++ [⟨(findOrCreateServer db.servers host).1, metricStored memory, t⟩]
        else db.memory := by
  unfold update_database
  by_cases h2 : metricIsError cpu = false ∧ metricIsError memory = false <;>
    by_cases h3 : users = [] <;> by_cases h4 : ips = [] <;> simp [h2, h3, h4]

theorem ud_users_len (host : String) (cpu memory : Metric) (users ips : List String)
    (t : ℕ) (db : Db) :
    (update_database host cpu memory users ips t db).users.length
      = db.users.length + users.length := by
  unfold update_database
  by_cases h2 : metricIsError cpu = false ∧ metricIsError memory = false <;>
    by_cases h3 : users = [] <;> by_cases h4 : ips = [] <;> simp [h2, h3, h4]

theorem ud_ips (host : String) (cpu memory : Metric) (users ips : List String)
    (t : ℕ) (db : Db) :
    (update_database host cpu memory users ips t db).ips
      = (ips.map (fun ip =>
          (⟨(findOrCreateServer db.servers host).1, ip, t⟩ : IpRow))).foldl upsertIp db.ips := by
  unfold update_database
  by_cases h2 : metricIsError cpu = false ∧ metricIsError memory = false <;>
    by_cases h3 : users = [] <;> by_cases h4 : ips = [] <;> simp [h2, h3, h4]

theorem ts_cpu (env : CheckEnv) (sid t : ℕ) (db : Db) :
    (test_server_connectivity_and_disk env sid t db).cpu = db.cpu := by
  unfold test_server_connectivity_and_disk
  rcases hv : checkDiskValues env.connect_ok env.disk_run with ⟨_ | tc, _ | rc⟩ <;>
    dsimp only <;> first | rfl | (split <;> rfl)

theorem ts_memory (env : CheckEnv) (sid t : ℕ) (db : Db) :
    (test_server_connectivity_and_disk env sid t db).memory = db.memory := by
  unfold test_server_connectivity_and_disk
  rcases hv : checkDiskValues env.connect_ok env.disk_run with ⟨_ | tc, _ | rc⟩ <;>
    dsimp only <;> first | rfl | (split <;> rfl)

theorem ts_users (env : CheckEnv) (sid t : ℕ) (db : Db) :
    (test_server_connectivity_and_disk env sid t db).users = db.users := by
  unfold test_server_connectivity_and_disk
  rcases hv : checkDiskValues env.connect_ok env.disk_run with ⟨_ | tc, _ | rc⟩ <;>
    dsimp only <;> first | rfl | (split <;> rfl)

theorem ts_ips (env : CheckEnv) (sid t : ℕ) (db : Db) :
    (test_server_connectivity_and_disk env sid t db).ips = db.ips := by
  unfold test_server_connectivity_and_disk
  rcases hv : checkDiskValues env.connect_ok env.disk_run with ⟨_ | tc, _ | rc⟩ <;>
    dsimp only <;> first | rfl | (split <;> rfl)

theorem ts_servers (env : CheckEnv) (sid t : ℕ) (db : Db) :
    (test_server_connectivity_and_disk env sid t db).servers = db.servers := by
  unfold test_server_connectivity_and_disk
  rcases hv : checkDiskValues env.connect_ok env.disk_run with ⟨_ | tc, _ | rc⟩ <;>
    dsimp only <;> first | rfl | (split <;> rfl)

theorem ts_conn (env : CheckEnv) (sid t : ℕ) (db : Db) :
    (test_server_connectivity_and_disk env sid t db).connectivity
      = upsertConn db.connectivity ⟨sid, env.connect_ok, t⟩ := by
  unfold test_server_connectivity_and_disk
  rcases hv : checkDiskValues env.connect_ok env.disk_run with ⟨_ | tc, _ | rc⟩ <;>
    dsimp only <;> first | rfl | (split <;> rfl)

/-! ### Upsert lemmas -/

theorem upsertConn_key_eq (r x y : ConnRow) :
    ((if x.sid == r.sid then { x with ok := r.ok, t := r.t } else x).sid == y.sid)
      = (x.sid == y.sid) := by
  by_cases hx : (x.sid == r.sid) = true
  · rw [if_pos hx]
  · rw [if_neg hx]

theorem upsertConn_length (rows : List ConnRow) (r : ConnRow)
    (h : rows.any (fun x => x.sid == r.sid) = true) :
    (upsertConn rows r).length = rows.length := by
  unfold upsertConn
  rw [if_pos h, List.length_map]

theorem upsertConn_any_self (rows : List ConnRow) (r : ConnRow) :
    (upsertConn rows r).any (fun x => x.sid == r.sid) = true := by
  unfold upsertConn
  by_cases hany : rows.any (fun x => x.sid == r.sid) = true
  · rw [if_pos hany, List.any_map]
    have hfun : ((fun x : ConnRow => x.sid == r.sid) ∘
        (fun x => if x.sid == r.sid then { x with ok := r.ok, t := r.t } else x))
        = fun x : ConnRow => x.sid == r.sid := by
      funext x
      exact upsertConn_key_eq r x r
    rw [hfun]
    exact hany
  · rw [if_neg hany, List.any_append]
    simp

theorem upsertIp_key_eq (r x y : IpRow) :
    (((if x.sid == r.sid && x.ip == r.ip then { x with ip := r.ip, t := r.t } else x).sid == y.sid)
      && ((if x.sid == r.sid && x.ip == r.ip then { x with ip := r.ip, t := r.t } else x).ip == y.ip))
      = (x.sid == y.sid && x.ip == y.ip) := by
  by_cases hx : (x.sid == r.sid && x.ip == r.ip) = true
  · have hip : x.ip = r.ip := eq_of_beq (Bool.and_elim_right hx)
    rw [if_pos hx]
    simp [hip]
  · rw [if_neg hx]

theorem upsertIp_any_mono (rows : List IpRow) (r y : IpRow)
    (h : rows.any (fun z => z.sid == y.sid && z.ip == y.ip) = true) :
    (upsertIp rows r).any (fun z => z.sid == y.sid && z.ip == y.ip) = true := by
  unfold upsertIp
  by_cases hany : rows.any (fun z => z.sid == r.sid && z.ip == r.ip) = true
  · rw [if_pos hany, List.any_map]
    have hfun : ((fun z : IpRow => z.sid == y.sid && z.ip == y.ip) ∘
        (fun x => if x.sid == r.sid && x.ip == r.ip then { x with ip := r.ip, t := r.t } else x))
        = fun z : IpRow => z.sid == y.sid && z.ip == y.ip := by
      funext x
      exact upsertIp_key_eq r x y
    rw [hfun]
    exact h
  · rw [if_neg hany, List.any_append, h]
    rfl

theorem upsertIp_any_self (rows : List IpRow) (r : IpRow) :
    (upsertIp rows r).any (fun z => z.sid == r.sid && z.ip == r.ip) = true := by
  unfold upsertIp
  by_cases hany : rows.any (fun z => z.sid == r.sid && z.ip == r.ip) = true
  · rw [if_pos hany, List.any_map]
    have hfun : ((fun z : IpRow => z.sid == r.sid && z.ip == r.ip) ∘
        (fun x => if x.sid == r.sid && x.ip == r.ip then { x with ip := r.ip, t := r.t } else x))
        = fun z : IpRow => z.sid == r.sid && z.ip == r.ip := by
      funext x
      exact upsertIp_key_eq r x r
    rw [hfun]
    exact hany
  · rw [if_neg hany, List.any_append]
    simp

theorem upsertIp_length (rows : List IpRow) (r : IpRow)
    (h : rows.any (fun z => z.sid == r.sid && z.ip == r.ip) = true) :
    (upsertIp rows r).length = rows.length := by
  unfold upsertIp
  rw [if_pos h, List.length_map]

theorem foldl_upsertIp_any (l rows : List IpRow) (y : IpRow)
    (h : rows.any (fun z => z.sid == y.sid && z.ip == y.ip) = true) :
    (l.foldl upsertIp rows).any (fun z => z.sid == y.sid && z.ip == y.ip) = true := by
  induction l generalizing rows with
  | nil => exact h
  | cons a l ih =>
    simp only [List.foldl_cons]
    exact ih _ (upsertIp_any_mono rows a y h)

theorem foldl_upsertIp_self (l rows : List IpRow) :
    ∀ y ∈ l, (l.foldl upsertIp rows).any (fun z => z.sid == y.sid && z.ip == y.ip) = true := by
  induction l generalizing rows with
  | nil =>
    intro y hy
    exact absurd hy (List.not_mem_nil y)
  | cons a l ih =>
    intro y hy
    simp only [List.foldl_cons]
    rcases List.mem_cons.mp hy with hy | hy
    · subst hy
      exact foldl_upsertIp_any l _ y (upsertIp_any_self rows y)
    · exact ih _ y hy

theorem foldl_upsertIp_length (l rows : List IpRow)
    (h : ∀ y ∈ l, rows.any (fun z => z.sid == y.sid && z.ip == y.ip) = true) :
    (l.foldl upsertIp rows).length = rows.length := by
  induction l generalizing rows with
  | nil => rfl
  | cons a l ih =>
    simp only [List.foldl_cons]
    rw [ih (upsertIp rows a)
      (fun y hy => upsertIp_any_mono rows a y (h y (List.mem_cons_of_mem a hy))),
      upsertIp_length rows a (h a (List.mem_cons_self a l))]

theorem filter_map_upsert (rows : List ConnRow) (r : ConnRow)
    (hany : rows.any (fun x => x.sid == r.sid) = true)
    (h : (rows.filter (fun x => x.sid == r.sid)).length ≤ 1) :
    (rows.map (fun x => if x.sid == r.sid then { x with ok := r.ok, t := r.t } else x)).filter
      (fun x => x.sid == r.sid) = [r] := by
  induction rows with
  | nil => simp at hany
  | cons a rows ih =>
    by_cases ha : (a.sid == r.sid) = true
    · have haeq : a.sid = r.sid := eq_of_beq ha
      have htail : ∀ y ∈ rows, ¬ ((fun x : ConnRow => x.sid == r.sid) y = true) := by
        rw [List.filter_cons, if_pos ha, List.length_cons] at h
        have hnil : rows.filter (fun x => x.sid == r.sid) = [] :=
          List.length_eq_zero.mp (by omega)
        intro y hy
        exact List.filter_eq_nil_iff.mp hnil y hy
      have hfa : (if a.sid == r.sid then { a with ok := r.ok, t := r.t } else a) = r := by
        rw [if_pos ha, haeq]
      have hmap : rows.map
          (fun x => if x.sid == r.sid then { x with ok := r.ok, t := r.t } else x) = rows := by
        rw [show rows = rows.map id by rw [List.map_id]]
        rw [List.map_map]
        apply List.map_congr_left
        intro y hy
        have hy2 : (y.sid == r.sid) = false := by
          have := htail y hy
          simpa using this
        rw [Function.comp_apply, if_neg (by simp [hy2]), id]
      rw [List.map_cons, hfa, hmap, List.filter_cons, if_pos (by simp),
        List.filter_eq_nil_iff.mpr htail]
    · have hanyr : rows.any (fun x => x.sid == r.sid) = true := by
        rw [List.any_cons] at hany
        have ha2 : (a.sid == r.sid) = false := by simpa using ha
        simpa [ha2] using hany
      have hh : (rows.filter (fun x => x.sid == r.sid)).length ≤ 1 := by
        rw [List.filter_cons, if_neg ha] at h
        exact h
      rw [List.map_cons, if_neg ha, List.filter_cons, if_neg ha]
      exact ih hanyr hh

theorem filter_upsertConn (rows : List ConnRow) (r : ConnRow)
    (h : (rows.filter (fun x => x.sid == r.sid)).length ≤ 1) :
    (upsertConn rows r).filter (fun x => x.sid == r.sid) = [r] := by
  unfold upsertConn
  by_cases hany : rows.any (fun x => x.sid == r.sid) = true
  · rw [if_pos hany]
    exact filter_map_upsert rows r hany h
  · rw [if_neg hany, List.filter_append]
    have h1 : rows.filter (fun x => x.sid == r.sid) = [] := by
      apply List.filter_eq_nil_iff.mpr
      intro y hy
      have hf : rows.any (fun x => x.sid == r.sid) = false := by simpa using hany
      have := List.any_eq_false.mp hf y hy
      simpa using this
    rw [h1, List.nil_append, List.filter_cons, if_pos (by simp)]
    rfl

theorem ts_disk_of_none (env : CheckEnv) (sid t : ℕ) (db : Db)
    (h : checkDiskValues env.connect_ok env.disk_run = (none, none)) :
    (test_server_connectivity_and_disk env sid t db).disk = db.disk := by
  unfold test_server_connectivity_and_disk
  rw [h]

theorem ts_disk_not_truthy (env : CheckEnv) (sid t : ℕ) (db : Db) (tc rc : ℚ)
    (h : checkDiskValues env.connect_ok env.disk_run = (some tc, some rc))
    (h0 : tc = 0 ∨ rc = 0) :
    (test_server_connectivity_and_disk env sid t db).disk = db.disk := by
  unfold test_server_connectivity_and_disk
  rw [h]
  dsimp only
  have hff : (pyTruthy (some tc) && pyTruthy (some rc)) = false := by
    rcases h0 with h0 | h0 <;> subst h0 <;> simp [pyTruthy]
  rw [hff]
  rfl

/-- C9: `update_database` stores a percentage carrying the `"Unknown"`
sentinel as SQL `NULL` (`none`), never as a numeric default such as `0`; a
numeric percentage is stored as exactly the parsed value rounded to two
decimal places — for both the CPU and the memory column. -/
theorem C9_unknown_stored_null (host : String) (q m : ℚ) (users ips : List String)
    (t : ℕ) (db : Db) :
    (update_database host Metric.unknown (Metric.val m) users ips t db).cpu
      = db.cpu ++ [⟨(findOrCreateServer db.servers host).1, none, t⟩]
    ∧ (update_database host (Metric.val q) (Metric.val m) users ips t db).cpu
      = db.cpu ++ [⟨(findOrCreateServer db.servers host).1, some (round2 q), t⟩]
    ∧ (update_database host (Metric.val q) Metric.unknown users ips t db).memory
      = db.memory ++ [⟨(findOrCreateServer db.servers host).1, none, t⟩]
    ∧ (update_database host (Metric.val q) (Metric.val m) users ips t db).memory
      = db.memory ++ [⟨(findOrCreateServer db.servers host).1, some (round2 m), t⟩] := by
  refine ⟨?_, ?_, ?_, ?_⟩ <;>
    simp [ud_cpu, ud_memory, metricIsError, metricStored]

/-- C6: per cycle each host gets exactly one connectivity record, whose flag
equals the connection outcome, and when the connection attempt failed no
disk-storage row is written (the disk table is untouched).  The hypothesis
states that the store holds at most one connectivity row per server key, the
invariant the upsert maintains. -/
theorem C6_reachability_exclusive (env : CheckEnv) (sid t : ℕ) (db : Db)
    (h : (db.connectivity.filter (fun x => x.sid == sid)).length ≤ 1) :
    (test_server_connectivity_and_disk env sid t db).connectivity.filter
        (fun x => x.sid == sid)
      = [⟨sid, env.connect_ok, t⟩]
    ∧ (env.connect_ok = false →
        (test_server_connectivity_and_disk env sid t db).disk = db.disk) := by
  constructor
  · rw [ts_conn]
    exact filter_upsertConn db.connectivity ⟨sid, env.connect_ok, t⟩ h
  · intro hfail
    have hcv : checkDiskValues env.connect_ok env.disk_run = (none, none) := by
      rw [hfail]
      rfl
    exact ts_disk_of_none env sid t db hcv

/-- C6 witness: a failed connection on an empty store records
`is_connectable = false` and writes no disk row. -/
theorem C6_witness :
    (test_server_connectivity_and_disk ⟨false, none⟩ 0 0 dbEmpty).connectivity.filter
        (fun x => x.sid == 0) = [⟨0, false, 0⟩]
    ∧ (false = false →
        (test_server_connectivity_and_disk ⟨false, none⟩ 0 0 dbEmpty).disk = dbEmpty.disk) :=
  C6_reachability_exclusive ⟨false, none⟩ 0 0 dbEmpty (by decide)

/-- C10: when disk parsing succeeds but either converted value equals `0.0`,
the Python truthiness gate `if total_capacity_gb and remaining_capacity_gb`
rejects the pair, so no disk-storage row is written, while the connectivity
row is still upserted. -/
theorem C10_zero_disk_not_written (env : CheckEnv) (sid t : ℕ) (db : Db) (tc rc : ℚ)
    (h : checkDiskValues env.connect_ok env.disk_run = (some tc, some rc))
    (h0 : tc = 0 ∨ rc = 0) :
    (test_server_connectivity_and_disk env sid t db).disk = db.disk
    ∧ (test_server_connectivity_and_disk env sid t db).connectivity
      = upsertConn db.connectivity ⟨sid, env.connect_ok, t⟩ :=
  ⟨ts_disk_not_truthy env sid t db tc rc h h0, ts_conn env sid t db⟩

/-- C10 witness: free space of 1,000,000 bytes rounds to `0.00` GB, so the
disk write is skipped although parsing succeeded; connectivity is still
recorded. -/
theorem C10_witness :
    (test_server_connectivity_and_disk ⟨true, some ⟨0, "1000000  200000000000"⟩⟩ 0 0 dbEmpty).disk
      = dbEmpty.disk
    ∧ (test_server_connectivity_and_disk
          ⟨true, some ⟨0, "1000000  200000000000"⟩⟩ 0 0 dbEmpty).connectivity
      = upsertConn dbEmpty.connectivity ⟨0, true, 0⟩ := by
  have hpd : parse_disk_info "1000000  200000000000" = (some (18626 / 100 : ℚ), some 0) := by
    have hs : diskSearch (pystrip ("1000000  200000000000").data)
        = some (1000000, 200000000000) := by decide
    unfold parse_disk_info
    rw [hs]
    dsimp only
    rw [show ((200000000000 : ℕ) : ℚ) = 200000000000 by norm_cast,
      show ((1000000 : ℕ) : ℚ) = 1000000 by norm_cast,
      round2_eq_of_lt ((200000000000 : ℚ) / 1024 ^ 3) 18626 (by norm_num) (by norm_num),
      round2_eq_of_lt ((1000000 : ℚ) / 1024 ^ 3) 0 (by norm_num) (by norm_num)]
    norm_num
  have hcv : checkDiskValues true (some ⟨0, "1000000  200000000000"⟩)
      = (some (18626 / 100 : ℚ), some 0) := by
    have hstep : checkDiskValues true (some ⟨0, "1000000  200000000000"⟩)
        = parse_disk_info "1000000  200000000000" := rfl
    rw [hstep, hpd]
  exact C10_zero_disk_not_written ⟨true, some ⟨0, "1000000  200000000000"⟩⟩ 0 0 dbEmpty
    (18626 / 100) 0 hcv (Or.inr rfl)

/-- C7: applying the persistence functions of one cycle twice with identical
results and timestamp leaves the connectivity and active-IP tables at the
same row count after the second application (upserts keyed by host and by
`(host, ip_address)`), while the CPU-usage, memory-usage and active-user
tables end with exactly double the rows of a single application (plain
appends). -/
theorem C7_persistence_row_counts (host : String) (cpu memory : Metric)
    (users ips : List String) (t : ℕ) (env : CheckEnv) (sid : ℕ) :
    (cyclePersist host cpu memory users ips t env sid
        (cyclePersist host cpu memory users ips t env sid dbEmpty)).connectivity.length
      = (cyclePersist host cpu memory users ips t env sid dbEmpty).connectivity.length
    ∧ (cyclePersist host cpu memory users ips t env sid
        (cyclePersist host cpu memory users ips t env sid dbEmpty)).ips.length
      = (cyclePersist host cpu memory users ips t env sid dbEmpty).ips.length
    ∧ (cyclePersist host cpu memory users ips t env sid
        (cyclePersist host cpu memory users ips t env sid dbEmpty)).cpu.length
      = 2 * (cyclePersist host cpu memory users ips t env sid dbEmpty).cpu.length
    ∧ (cyclePersist host cpu memory users ips t env sid
        (cyclePersist host cpu memory users ips t env sid dbEmpty)).memory.length
      = 2 * (cyclePersist host cpu memory users ips t env sid dbEmpty).memory.length
    ∧ (cyclePersist host cpu memory users ips t env sid
        (cyclePersist host cpu memory users ips t env sid dbEmpty)).users.length
      = 2 * (cyclePersist host cpu memory users ips t env sid dbEmpty).users.length := by
  have A1 : ∀ db : Db, (cyclePersist host cpu memory users ips t env sid db).connectivity
      = upsertConn db.connectivity ⟨sid, env.connect_ok, t⟩ := by
    intro db
    unfold cyclePersist
    rw [ts_conn, ud_connectivity]
  have A2 : ∀ db : Db, (cyclePersist host cpu memory users ips t env sid db).cpu.length
      = db.cpu.length
        + (if metricIsError cpu = false ∧ metricIsError memory = false then 1 else 0) := by
    intro db
    unfold cyclePersist
    rw [ts_cpu, ud_cpu]
    by_cases hc : metricIsError cpu = false ∧ metricIsError memory = false
    · simp [hc]
    · simp [hc]
  have A3 : ∀ db : Db, (cyclePersist host cpu memory users ips t env sid db).memory.length
      = db.memory.length
        + (if metricIsError cpu = false ∧ metricIsError memory = false then 1 else 0) := by
    intro db
    unfold cyclePersist
    rw [ts_memory, ud_memory]
    by_cases hc : metricIsError cpu = false ∧ metricIsError memory = false
    · simp [hc]
    · simp [hc]
  have A4 : ∀ db : Db, (cyclePersist host cpu memory users ips t env sid db).users.length
      = db.users.length + users.length := by
    intro db
    unfold cyclePersist
    rw [ts_users, ud_users_len]
  have A5 : ∀ db : Db, (cyclePersist host cpu memory users ips t env sid db).servers
      = (findOrCreateServer db.servers host).2 := by
    intro db
    unfold cyclePersist
    rw [ts_servers, ud_servers]
  have A6 : ∀ db : Db, (cyclePersist host cpu memory users ips t env sid db).ips
      = (ips.map (fun ip =>
          (⟨(findOrCreateServer db.servers host).1, ip, t⟩ : IpRow))).foldl upsertIp db.ips := by
    intro db
    unfold cyclePersist
    rw [ts_ips, ud_ips]
  refine ⟨?_, ?_, ?_, ?_, ?_⟩
  · rw [A1, A1]
    have h0 : upsertConn dbEmpty.connectivity ⟨sid, env.connect_ok, t⟩
        = [⟨sid, env.connect_ok, t⟩] := rfl
    rw [h0]
    exact upsertConn_length _ _ (by simp)
  · rw [A6, A6, A5]
    have e1a : (findOrCreateServer dbEmpty.servers host).1 = 0 := rfl
    have e1b : (findOrCreateServer dbEmpty.servers host).2 = [host] := rfl
    have e2a : (findOrCreateServer [host] host).1 = 0 := by
      unfold findOrCreateServer
      simp [List.findIdx?_cons]
    simp only [e1a, e1b, e2a]
    exact foldl_upsertIp_length _ _ (fun y hy => foldl_upsertIp_self _ _ y hy)
  · rw [A2, A2]
    by_cases hc : metricIsError cpu = false ∧ metricIsError memory = false
    · simp [hc, dbEmpty]
    · simp [hc, dbEmpty]
  · rw [A3, A3]
    by_cases hc : metricIsError cpu = false ∧ metricIsError memory = false
    · simp [hc, dbEmpty]
    · simp [hc, dbEmpty]
  · rw [A4, A4]
    have h0 : dbEmpty.users.length = 0 := rfl
    rw [h0]
    omega
